import Mathlib

/-!
Verification of the UTXO transaction-construction engine of `expo-trust-core`
(`src/helpers/BitcoinTransactionBuilder.ts`, `src/helpers/DogecoinTransactionBuilder.ts`,
address predicates from `BitcoinBalanceChecker` / `DogecoinBalanceChecker`).

All on-chain quantities (values, amounts, fees, sizes, rates) are integers in the
chain's smallest unit (satoshi / koinu); the spec fixes them to be non-negative
integers, so they are modelled as `Nat`.  `Math.ceil(txSize * feeRate)` is exact
integer multiplication under that convention.  JavaScript's `Array.prototype.sort`
is required by ECMAScript 2019 to be stable, so it is modelled by `List.mergeSort`
with the comparator's `≤`-relation.
-/

/-- A spendable output, as in `BitcoinUTXO` / `DogecoinUTXO`
(`txid`, `vout`, `value`, `scriptPubKey`, optional `confirmations`). -/
structure UTXO where
  txid : String
  vout : Nat
  value : Nat
  scriptPubKey : String
  confirmations : Option Nat
deriving DecidableEq

/-- The UTXO selection strategy union type
`'largest-first' | 'smallest-first' | 'optimal'`. -/
inductive Strategy where
  | largestFirst
  | smallestFirst
  | optimal
deriving DecidableEq

/-- The record returned by a successful `selectUTXOs` call:
`{ selectedUTXOs, totalInput, fee, change }`. -/
structure SelectionResult where
  selectedUTXOs : List UTXO
  totalInput : Nat
  fee : Nat
  change : Nat
deriving DecidableEq

/-- The payload of the `Insufficient funds: need ... have ...` error thrown by
`selectUTXOs`: `needed = targetAmount + estimatedFee`, `haveVal = totalInput`. -/
structure InsufficientFunds where
  needed : Nat
  haveVal : Nat
deriving DecidableEq

set_option allowUnsafeReducibility true in
attribute [semireducible] List.mergeSort List.merge

/-- Equality of `Except` results is decidable when both payloads are. -/
instance {ε α : Type} [DecidableEq ε] [DecidableEq α] : DecidableEq (Except ε α)
  | .ok a, .ok b =>
    if h : a = b then .isTrue (by rw [h]) else .isFalse (by intro hh; cases hh; exact h rfl)
  | .ok _, .error _ => .isFalse (by intro hh; cases hh)
  | .error _, .ok _ => .isFalse (by intro hh; cases hh)
  | .error e, .error f =>
    if h : e = f then .isTrue (by rw [h]) else .isFalse (by intro hh; cases hh; exact h rfl)

/-- The strategy-dependent sort of `selectUTXOs` (`sortedUTXOs.sort(...)` on the
copy `[...utxos]`).  Each JavaScript comparator is translated to the Boolean
`≤`-relation it induces; `List.mergeSort` is stable, as ECMAScript requires:
`largest-first` = descending by value, `smallest-first` = ascending by value,
`optimal` = ascending by `Math.abs(value - targetAmount)`. -/
def sortUTXOs (strategy : Strategy) (targetAmount : Nat) (utxos : List UTXO) : List UTXO :=
  match strategy with
  | .largestFirst => utxos.mergeSort (fun a b => decide (b.value ≤ a.value))
  | .smallestFirst => utxos.mergeSort (fun a b => decide (a.value ≤ b.value))
  | .optimal => utxos.mergeSort (fun a b =>
      decide (((a.value : Int) - (targetAmount : Int)).natAbs ≤
        ((b.value : Int) - (targetAmount : Int)).natAbs))

/-- The strategy's sort key: two UTXOs compare equal under the strategy's
comparator exactly when their keys are equal. -/
def sortKey (strategy : Strategy) (targetAmount : Nat) (u : UTXO) : Nat :=
  match strategy with
  | .largestFirst => u.value
  | .smallestFirst => u.value
  | .optimal => ((u.value : Int) - (targetAmount : Int)).natAbs

/-- The projected output count decided after each addition:
`const outputCount = totalInput > targetAmount + estimatedFee + dust ? 2 : 1`
(a change output is only projected when it would clear the dust threshold). -/
def projectedOutputs (targetAmount estimatedFee dust total : Nat) : Nat :=
  if targetAmount + estimatedFee + dust < total then 2 else 1

/-- The `for (const utxo of sortedUTXOs)` loop of `selectUTXOs`, parameterized by
the chain's size weights (`inW` per input, `outW` per output, `ovh` overhead) and
dust limit, carrying the loop state `(selectedUTXOs, totalInput, estimatedFee)`.
Bitcoin instantiates the weights with the SegWit estimate `68/31/10` and
`dust = 546`; Dogecoin with the legacy estimate `148/34/10` and
`dust = 100000000`.  Falling off the end of the loop is the thrown
`Insufficient funds` error, with `needed = targetAmount + estimatedFee` and
`haveVal = totalInput` as in the error message. -/
def selectLoop (inW outW ovh dust targetAmount feeRate : Nat) :
    List UTXO → List UTXO → Nat → Nat → Except InsufficientFunds SelectionResult
  | [], _selectedUTXOs, totalInput, estimatedFee =>
      .error ⟨targetAmount + estimatedFee, totalInput⟩
  | utxo :: rest, selectedUTXOs, totalInput, estimatedFee =>
      let selected := selectedUTXOs ++ [utxo]
      let total := totalInput + utxo.value
      -- `const outputCount = totalInput > targetAmount + estimatedFee + dust ? 2 : 1`
      let outputCount := projectedOutputs targetAmount estimatedFee dust total
      -- `estimatedFee = Math.ceil(txSize * feeRate)`; exact on integers
      let fee := (selected.length * inW + outputCount * outW + ovh) * feeRate
      if targetAmount + fee ≤ total then
        let change := total - targetAmount - fee
        -- `if (change > 0 && change < dust)` : fold sub-dust change into the fee
        if 0 < change ∧ change < dust then
          .ok ⟨selected, total, fee + change, 0⟩
        else
          .ok ⟨selected, total, fee, change⟩
      else
        selectLoop inW outW ovh dust targetAmount feeRate rest selected total fee

/-- The chain-generic body of `selectUTXOs`: sort a copy of the caller's UTXO
array by the strategy, then run the greedy selection loop with empty initial
state. -/
def selectUTXOsCore (inW outW ovh dust : Nat) (utxos : List UTXO)
    (targetAmount feeRate : Nat) (strategy : Strategy) :
    Except InsufficientFunds SelectionResult :=
  selectLoop inW outW ovh dust targetAmount feeRate
    (sortUTXOs strategy targetAmount utxos) [] 0 0

/-- State-passing embedding of `selectUTXOs` that also returns the caller's
array as it stands after the call: `let sortedUTXOs = [...utxos]` copies the
array and `.sort()` mutates only that copy, so the caller's array is returned
unchanged as the post-call state. -/
def selectUTXOsCallerArray (inW outW ovh dust : Nat) (utxos : List UTXO)
    (targetAmount feeRate : Nat) (strategy : Strategy) :
    Except InsufficientFunds SelectionResult × List UTXO :=
  let sortedUTXOs := sortUTXOs strategy targetAmount utxos
  (selectLoop inW outW ovh dust targetAmount feeRate sortedUTXOs [] 0 0, utxos)

namespace BitcoinTransactionBuilder

/-- `BitcoinTransactionBuilder.estimateTransactionSize`:
SegWit `(inputs·68 + outputs·31 + 10)` vBytes, legacy `(inputs·148 + outputs·34 + 10)`. -/
def estimateTransactionSize (inputCount outputCount : Nat) (useSegwit : Bool) : Nat :=
  if useSegwit then
    inputCount * 68 + outputCount * 31 + 10
  else
    inputCount * 148 + outputCount * 34 + 10

/-- `BitcoinTransactionBuilder.selectUTXOs`: SegWit weights (the loop always
calls `estimateTransactionSize(..., true)`), dust limit 546 satoshis. -/
def selectUTXOs (utxos : List UTXO) (targetAmount feeRate : Nat)
    (strategy : Strategy) : Except InsufficientFunds SelectionResult :=
  selectUTXOsCore 68 31 10 546 utxos targetAmount feeRate strategy

end BitcoinTransactionBuilder

namespace DogecoinTransactionBuilder

/-- `DogecoinTransactionBuilder.estimateTransactionSize`: legacy format only,
`(inputs·148 + outputs·34 + 10)` bytes. -/
def estimateTransactionSize (inputCount outputCount : Nat) : Nat :=
  inputCount * 148 + outputCount * 34 + 10

/-- `DogecoinTransactionBuilder.selectUTXOs`: legacy weights, dust limit
100,000,000 koinu (1 DOGE). -/
def selectUTXOs (utxos : List UTXO) (targetAmount feeRate : Nat)
    (strategy : Strategy) : Except InsufficientFunds SelectionResult :=
  selectUTXOsCore 148 34 10 100000000 utxos targetAmount feeRate strategy

end DogecoinTransactionBuilder

/-- Each strategy's sort is a permutation of the input UTXO array. -/
theorem sortUTXOs_perm (strategy : Strategy) (targetAmount : Nat) (utxos : List UTXO) :
    (sortUTXOs strategy targetAmount utxos).Perm utxos := by
  cases strategy <;> exact List.mergeSort_perm _ _

/-- Loop invariant: a successful `selectLoop` run started with
`totalAcc = Σ selAcc.value` returns a result whose `totalInput` is the sum of
the selected values, which accounts exactly for amount, fee and change, and
whose change is never strictly between `0` and `dust`. -/
theorem selectLoop_ok_spec (inW outW ovh dust targetAmount feeRate : Nat) :
    ∀ (rest selAcc : List UTXO) (totalAcc feeAcc : Nat) (r : SelectionResult),
    totalAcc = (selAcc.map UTXO.value).sum →
    selectLoop inW outW ovh dust targetAmount feeRate rest selAcc totalAcc feeAcc = .ok r →
    r.totalInput = (r.selectedUTXOs.map UTXO.value).sum ∧
    r.totalInput = targetAmount + r.fee + r.change ∧
    (r.change = 0 ∨ dust ≤ r.change) := by
  intro rest
  induction rest with
  | nil =>
    intro selAcc totalAcc feeAcc r hsum h
    simp [selectLoop] at h
  | cons u rest ih =>
    intro selAcc totalAcc feeAcc r hsum h
    rw [selectLoop] at h
    simp only at h
    split at h
    · rename_i hEnough
      split at h
      · rename_i hDust
        cases h
        refine ⟨by simp [hsum], by simp only; omega, Or.inl rfl⟩
      · rename_i hDust
        cases h
        exact ⟨by simp [hsum], by simp only; omega, by simp only at hDust ⊢; omega⟩
    · exact ih _ _ _ _ (by simp [hsum]) h

/-- A successful `selectLoop` run returns exactly the accumulator extended by
some prefix of the remaining (sorted) UTXO list. -/
theorem selectLoop_ok_selected (inW outW ovh dust targetAmount feeRate : Nat) :
    ∀ (rest selAcc : List UTXO) (totalAcc feeAcc : Nat) (r : SelectionResult),
    selectLoop inW outW ovh dust targetAmount feeRate rest selAcc totalAcc feeAcc = .ok r →
    ∃ pre suf, rest = pre ++ suf ∧ r.selectedUTXOs = selAcc ++ pre := by
  intro rest
  induction rest with
  | nil =>
    intro selAcc totalAcc feeAcc r h
    simp [selectLoop] at h
  | cons u rest ih =>
    intro selAcc totalAcc feeAcc r h
    rw [selectLoop] at h
    simp only at h
    split at h
    · split at h <;> cases h <;> exact ⟨[u], rest, rfl, rfl⟩
    · obtain ⟨pre, suf, hsplit, hsel⟩ := ih _ _ _ _ h
      exact ⟨u :: pre, suf, by simp [hsplit], by simp [hsel]⟩

/-- A failing `selectLoop` run has consumed every UTXO: the reported `haveVal`
is the accumulated total plus the sum of all remaining values, and the reported
`needed` is `targetAmount` plus the fee estimate computed at the final input
count (with a projected output count of 1 or 2). -/
theorem selectLoop_error_spec (inW outW ovh dust targetAmount feeRate : Nat) :
    ∀ (rest selAcc : List UTXO) (totalAcc feeAcc : Nat) (e : InsufficientFunds),
    selectLoop inW outW ovh dust targetAmount feeRate rest selAcc totalAcc feeAcc = .error e →
    e.haveVal = totalAcc + (rest.map UTXO.value).sum ∧
    (rest = [] → e.needed = targetAmount + feeAcc) ∧
    (rest ≠ [] → ∃ c, (c = 1 ∨ c = 2) ∧
      e.needed = targetAmount + ((selAcc.length + rest.length) * inW + c * outW + ovh) * feeRate) := by
  intro rest
  induction rest with
  | nil =>
    intro selAcc totalAcc feeAcc e h
    rw [selectLoop] at h
    injection h with h2
    subst h2
    exact ⟨by simp, fun _ => rfl, fun hne => absurd rfl hne⟩
  | cons u rest ih =>
    intro selAcc totalAcc feeAcc e h
    rw [selectLoop] at h
    simp only at h
    split at h
    · split at h <;> cases h
    · rename_i hNotEnough
      obtain ⟨hHave, hNil, hCons⟩ := ih _ _ _ _ h
      refine ⟨by simp at hHave ⊢; omega, fun hne => absurd hne (List.cons_ne_nil u rest),
        fun _ => ?_⟩
      by_cases hr : rest = []
      · subst hr
        refine ⟨projectedOutputs targetAmount feeAcc dust (totalAcc + u.value), ?_, ?_⟩
        · unfold projectedOutputs; split <;> simp
        · have hlen : selAcc.length + (u :: ([] : List UTXO)).length =
              (selAcc ++ [u]).length := by simp
          rw [hlen]
          exact hNil rfl
      · obtain ⟨c, hc, hneed⟩ := hCons hr
        refine ⟨c, hc, ?_⟩
        have hlen : selAcc.length + (u :: rest).length =
            (selAcc ++ [u]).length + rest.length := by simp; omega
        rw [hlen]
        exact hneed

/-- The character class `[a-zA-HJ-NP-Z0-9]` shared by the Bitcoin and Dogecoin
address regexes. -/
def addressBodyChar (c : Char) : Bool :=
  (decide ('a' ≤ c) && decide (c ≤ 'z')) ||
  (decide ('A' ≤ c) && decide (c ≤ 'H')) ||
  (decide ('J' ≤ c) && decide (c ≤ 'N')) ||
  (decide ('P' ≤ c) && decide (c ≤ 'Z')) ||
  (decide ('0' ≤ c) && decide (c ≤ '9'))

namespace BitcoinBalanceChecker

/-- `BitcoinBalanceChecker.isValidAddress`: the anchored regex
`(1|3|bc1)[a-zA-HJ-NP-Z0-9]\x7b25,62\x7d` — one of the three literal prefixes
followed by 25 to 62 characters of the class. -/
def isValidAddress (address : String) : Bool :=
  match address.toList with
  | '1' :: rest =>
      rest.all addressBodyChar && decide (25 ≤ rest.length) && decide (rest.length ≤ 62)
  | '3' :: rest =>
      rest.all addressBodyChar && decide (25 ≤ rest.length) && decide (rest.length ≤ 62)
  | 'b' :: 'c' :: '1' :: rest =>
      rest.all addressBodyChar && decide (25 ≤ rest.length) && decide (rest.length ≤ 62)
  | _ => false

end BitcoinBalanceChecker

namespace DogecoinBalanceChecker

/-- `DogecoinBalanceChecker.isValidAddress`: the anchored regex
`(D|9|A)[a-zA-HJ-NP-Z0-9]\x7b33\x7d` — prefix `D`, `9` or `A` followed by exactly
33 characters of the class. -/
def isValidAddress (address : String) : Bool :=
  match address.toList with
  | 'D' :: rest => rest.all addressBodyChar && decide (rest.length = 33)
  | '9' :: rest => rest.all addressBodyChar && decide (rest.length = 33)
  | 'A' :: rest => rest.all addressBodyChar && decide (rest.length = 33)
  | _ => false

end DogecoinBalanceChecker

/-- `TransactionBuildOptions` (common to both chains): optional fields model the
`= default` destructuring defaults in `build*Transaction`.  The `apiProvider`
option only selects which external endpoint the provider helper queries; the
UTXO snapshot itself is passed explicitly to the build model. -/
structure TransactionBuildOptions where
  toAddress : String
  amount : Nat
  feeRate : Option Nat
  changeAddress : Option String
  strategy : Option Strategy
deriving DecidableEq

/-- The errors thrown by `buildBTCTransaction` / `buildDOGETransaction`, in
source order. -/
inductive BuildError where
  | invalidSenderAddress
  | invalidRecipientAddress
  | amountNotPositive
  | amountBelowDustLimit
  | noUTXOsFound
  | insufficientFunds (needed haveVal : Nat)
deriving DecidableEq

namespace BitcoinTransactionBuilder

/-- `UnsignedBitcoinTransaction`. -/
structure UnsignedBitcoinTransaction where
  utxos : List UTXO
  toAddress : String
  amount : Nat
  changeAddress : String
  changeAmount : Nat
  fee : Nat
  byteFee : Nat
  totalInput : Nat
  estimatedSize : Nat
deriving DecidableEq

/-- `BitcoinTransactionBuilder.buildBTCTransaction`.  The external UTXO provider
(`BitcoinBalanceChecker.getUTXOs`) is modelled by the snapshot `providerUTXOs`
it would return; the second component of the result records whether execution
reached the provider call (`await ... getUTXOs`), i.e. whether the provider was
invoked. -/
def buildBTCTransaction (fromAddress : String) (options : TransactionBuildOptions)
    (providerUTXOs : List UTXO) :
    Except BuildError UnsignedBitcoinTransaction × Bool :=
  let toAddress := options.toAddress
  let amount := options.amount
  let feeRate := options.feeRate.getD 1
  let changeAddress := options.changeAddress.getD fromAddress
  let strategy := options.strategy.getD .largestFirst
  if !BitcoinBalanceChecker.isValidAddress fromAddress then
    (.error .invalidSenderAddress, false)
  else if !BitcoinBalanceChecker.isValidAddress toAddress then
    (.error .invalidRecipientAddress, false)
  else if amount ≤ 0 then
    (.error .amountNotPositive, false)
  else if amount < 546 then
    (.error .amountBelowDustLimit, false)
  else
    -- `await BitcoinBalanceChecker.getUTXOs(fromAddress, apiProvider)`
    let utxos := providerUTXOs
    if utxos.length = 0 then
      (.error .noUTXOsFound, true)
    else
      match selectUTXOs utxos amount feeRate strategy with
      | .error e => (.error (.insufficientFunds e.needed e.haveVal), true)
      | .ok r =>
          let outputCount := if 0 < r.change then 2 else 1
          let estimatedSize := estimateTransactionSize r.selectedUTXOs.length outputCount true
          (.ok { utxos := r.selectedUTXOs, toAddress := toAddress, amount := amount,
                 changeAddress := changeAddress, changeAmount := r.change, fee := r.fee,
                 byteFee := feeRate, totalInput := r.totalInput,
                 estimatedSize := estimatedSize }, true)

end BitcoinTransactionBuilder

namespace DogecoinTransactionBuilder

/-- `UnsignedDogecoinTransaction`. -/
structure UnsignedDogecoinTransaction where
  utxos : List UTXO
  toAddress : String
  amount : Nat
  changeAddress : String
  changeAmount : Nat
  fee : Nat
  byteFee : Nat
  totalInput : Nat
  estimatedSize : Nat
deriving DecidableEq

/-- `DogecoinTransactionBuilder.buildDOGETransaction`; provider modelled as in
`buildBTCTransaction`, default fee rate 100000 koinu/byte, dust limit 1 DOGE. -/
def buildDOGETransaction (fromAddress : String) (options : TransactionBuildOptions)
    (providerUTXOs : List UTXO) :
    Except BuildError UnsignedDogecoinTransaction × Bool :=
  let toAddress := options.toAddress
  let amount := options.amount
  let feeRate := options.feeRate.getD 100000
  let changeAddress := options.changeAddress.getD fromAddress
  let strategy := options.strategy.getD .largestFirst
  if !DogecoinBalanceChecker.isValidAddress fromAddress then
    (.error .invalidSenderAddress, false)
  else if !DogecoinBalanceChecker.isValidAddress toAddress then
    (.error .invalidRecipientAddress, false)
  else if amount ≤ 0 then
    (.error .amountNotPositive, false)
  else if amount < 100000000 then
    (.error .amountBelowDustLimit, false)
  else
    -- `await DogecoinBalanceChecker.getUTXOs(fromAddress, apiProvider)`
    let utxos := providerUTXOs
    if utxos.length = 0 then
      (.error .noUTXOsFound, true)
    else
      match selectUTXOs utxos amount feeRate strategy with
      | .error e => (.error (.insufficientFunds e.needed e.haveVal), true)
      | .ok r =>
          let outputCount := if 0 < r.change then 2 else 1
          let estimatedSize := estimateTransactionSize r.selectedUTXOs.length outputCount
          (.ok { utxos := r.selectedUTXOs, toAddress := toAddress, amount := amount,
                 changeAddress := changeAddress, changeAmount := r.change, fee := r.fee,
                 byteFee := feeRate, totalInput := r.totalInput,
                 estimatedSize := estimatedSize }, true)

end DogecoinTransactionBuilder

/-- The `\x7b valid, errors \x7d` record returned by `validateTransaction`. -/
structure ValidationReport where
  valid : Bool
  errors : List String
deriving DecidableEq

/-- The string id used by the double-spend check:
`` `$\x7butxo.txid\x7d:$\x7butxo.vout\x7d` ``. -/
def utxoId (u : UTXO) : String :=
  u.txid ++ ":" ++ toString u.vout

/-- The `for (const utxo of tx.utxos)` duplicate-UTXO loop shared by both
validators: push an error for every UTXO whose id has already been seen. -/
def duplicateErrors : List UTXO → List String → List String
  | [], _seen => []
  | u :: rest, seen =>
      (if seen.contains (utxoId u) then [("Duplicate UTXO: ") ++ utxoId u] else []) ++
        duplicateErrors rest (utxoId u :: seen)

namespace BitcoinTransactionBuilder

/-- The error list accumulated by
`BitcoinTransactionBuilder.validateTransaction`, in source order. -/
def validationErrors (tx : UnsignedBitcoinTransaction) : List String :=
  (if tx.utxos.length = 0 then ["No UTXOs selected"] else []) ++
  (if !BitcoinBalanceChecker.isValidAddress tx.toAddress
    then ["Invalid recipient address"] else []) ++
  (if !BitcoinBalanceChecker.isValidAddress tx.changeAddress
    then ["Invalid change address"] else []) ++
  (if tx.amount ≤ 0 then ["Amount must be greater than 0"] else []) ++
  (if tx.amount < 546 then ["Amount is below dust limit (546 satoshis)"] else []) ++
  (if 0 < tx.changeAmount ∧ tx.changeAmount < 546
    then ["Change amount is below dust limit (546 satoshis)"] else []) ++
  (if tx.totalInput < tx.amount + tx.fee then ["Insufficient input amount"] else []) ++
  (if tx.fee ≤ 0 then ["Fee must be greater than 0"] else []) ++
  duplicateErrors tx.utxos []

/-- `BitcoinTransactionBuilder.validateTransaction`:
`\x7b valid: errors.length === 0, errors \x7d`. -/
def validateTransaction (tx : UnsignedBitcoinTransaction) : ValidationReport :=
  let errors := validationErrors tx
  { valid := errors.length == 0, errors := errors }

end BitcoinTransactionBuilder

namespace DogecoinTransactionBuilder

/-- The error list accumulated by
`DogecoinTransactionBuilder.validateTransaction`, in source order. -/
def validationErrors (tx : UnsignedDogecoinTransaction) : List String :=
  (if tx.utxos.length = 0 then ["No UTXOs selected"] else []) ++
  (if !DogecoinBalanceChecker.isValidAddress tx.toAddress
    then ["Invalid recipient address"] else []) ++
  (if !DogecoinBalanceChecker.isValidAddress tx.changeAddress
    then ["Invalid change address"] else []) ++
  (if tx.amount ≤ 0 then ["Amount must be greater than 0"] else []) ++
  (if tx.amount < 100000000 then ["Amount is below dust limit (1 DOGE)"] else []) ++
  (if 0 < tx.changeAmount ∧ tx.changeAmount < 100000000
    then ["Change amount is below dust limit (1 DOGE)"] else []) ++
  (if tx.totalInput < tx.amount + tx.fee then ["Insufficient input amount"] else []) ++
  (if tx.fee ≤ 0 then ["Fee must be greater than 0"] else []) ++
  duplicateErrors tx.utxos []

/-- `DogecoinTransactionBuilder.validateTransaction`:
`\x7b valid: errors.length === 0, errors \x7d`. -/
def validateTransaction (tx : UnsignedDogecoinTransaction) : ValidationReport :=
  let errors := validationErrors tx
  { valid := errors.length == 0, errors := errors }

end DogecoinTransactionBuilder

/-- Specification of a successful `selectUTXOsCore` call, lifted from the loop
invariant: exact accounting of inputs, fee and change, and no sub-dust change. -/
theorem selectUTXOsCore_ok_spec (inW outW ovh dust : Nat) (utxos : List UTXO)
    (targetAmount feeRate : Nat) (strategy : Strategy) (r : SelectionResult)
    (h : selectUTXOsCore inW outW ovh dust utxos targetAmount feeRate strategy = .ok r) :
    r.totalInput = (r.selectedUTXOs.map UTXO.value).sum ∧
    r.totalInput = targetAmount + r.fee + r.change ∧
    (r.change = 0 ∨ dust ≤ r.change) :=
  selectLoop_ok_spec inW outW ovh dust targetAmount feeRate _ [] 0 0 r (by simp) h

/-- The selected UTXOs of a successful `selectUTXOsCore` call form a sublist of
the strategy-sorted input (in fact its first elements). -/
theorem selectUTXOsCore_selected_sublist (inW outW ovh dust : Nat) (utxos : List UTXO)
    (targetAmount feeRate : Nat) (strategy : Strategy) (r : SelectionResult)
    (h : selectUTXOsCore inW outW ovh dust utxos targetAmount feeRate strategy = .ok r) :
    r.selectedUTXOs.Sublist (sortUTXOs strategy targetAmount utxos) := by
  obtain ⟨pre, suf, hsplit, hsel⟩ :=
    selectLoop_ok_selected inW outW ovh dust targetAmount feeRate _ [] 0 0 r h
  rw [hsel, hsplit]
  simp

/-- Specification of a failed `selectUTXOsCore` call: the reported `haveVal` is
the sum of all supplied UTXO values (every UTXO was consumed), and `needed` is
`targetAmount` plus the fee estimate at the full input count. -/
theorem selectUTXOsCore_error_spec (inW outW ovh dust : Nat) (utxos : List UTXO)
    (targetAmount feeRate : Nat) (strategy : Strategy) (e : InsufficientFunds)
    (h : selectUTXOsCore inW outW ovh dust utxos targetAmount feeRate strategy = .error e) :
    e.haveVal = (utxos.map UTXO.value).sum ∧
    targetAmount ≤ e.needed ∧
    (utxos ≠ [] → ∃ c, (c = 1 ∨ c = 2) ∧
      e.needed = targetAmount + (utxos.length * inW + c * outW + ovh) * feeRate) := by
  obtain ⟨hHave, hNil, hCons⟩ :=
    selectLoop_error_spec inW outW ovh dust targetAmount feeRate _ [] 0 0 e h
  have hperm := sortUTXOs_perm strategy targetAmount utxos
  have hsum : ((sortUTXOs strategy targetAmount utxos).map UTXO.value).sum =
      (utxos.map UTXO.value).sum := (hperm.map UTXO.value).sum_eq
  have hlen : (sortUTXOs strategy targetAmount utxos).length = utxos.length :=
    hperm.length_eq
  refine ⟨by rw [hHave, hsum]; simp, ?_, ?_⟩
  · by_cases hs : sortUTXOs strategy targetAmount utxos = []
    · rw [hNil hs]
      omega
    · obtain ⟨c, _, hneed⟩ := hCons hs
      rw [hneed]
      omega
  · intro hne
    have hs : sortUTXOs strategy targetAmount utxos ≠ [] := by
      intro hcontra
      apply hne
      rw [← List.length_eq_zero, ← hlen, hcontra]
      rfl
    obtain ⟨c, hc, hneed⟩ := hCons hs
    refine ⟨c, hc, ?_⟩
    rw [hneed]
    simp [hlen]

/-- Stability of the strategy sorts: any two UTXOs with equal sort key that
occur as a sublist of the input occur in the same order in the sorted output
(the ECMAScript-mandated stable-sort behaviour of the modelled comparators). -/
theorem sortUTXOs_stable (strategy : Strategy) (targetAmount : Nat) (utxos : List UTXO)
    (a b : UTXO) (hsub : [a, b].Sublist utxos)
    (hkey : sortKey strategy targetAmount a = sortKey strategy targetAmount b) :
    [a, b].Sublist (sortUTXOs strategy targetAmount utxos) := by
  cases strategy with
  | largestFirst =>
    show [a, b].Sublist (utxos.mergeSort fun a b => decide (b.value ≤ a.value))
    simp only [sortKey] at hkey
    refine List.sublist_mergeSort ?_ ?_ ?_ hsub
    · intro x y z hxy hyz
      simp only [decide_eq_true_eq] at *
      omega
    · intro x y
      simp only [Bool.or_eq_true, decide_eq_true_eq]
      omega
    · exact List.pairwise_pair.mpr (by simp [hkey])
  | smallestFirst =>
    show [a, b].Sublist (utxos.mergeSort fun a b => decide (a.value ≤ b.value))
    simp only [sortKey] at hkey
    refine List.sublist_mergeSort ?_ ?_ ?_ hsub
    · intro x y z hxy hyz
      simp only [decide_eq_true_eq] at *
      omega
    · intro x y
      simp only [Bool.or_eq_true, decide_eq_true_eq]
      omega
    · exact List.pairwise_pair.mpr (by simp [hkey])
  | optimal =>
    show [a, b].Sublist (utxos.mergeSort fun a b =>
      decide (((a.value : Int) - (targetAmount : Int)).natAbs ≤
        ((b.value : Int) - (targetAmount : Int)).natAbs))
    simp only [sortKey] at hkey
    refine List.sublist_mergeSort ?_ ?_ ?_ hsub
    · intro x y z hxy hyz
      simp only [decide_eq_true_eq] at *
      omega
    · intro x y
      simp only [Bool.or_eq_true, decide_eq_true_eq]
      omega
    · exact List.pairwise_pair.mpr (by simp [hkey])

/-- Concrete UTXOs used by the worked scenarios below. -/
def u5000 : UTXO := ⟨"a", 0, 5000, "", some 1⟩

def u3000 : UTXO := ⟨"b", 0, 3000, "", some 1⟩

def u1000 : UTXO := ⟨"c", 0, 1000, "", some 1⟩

def u100 : UTXO := ⟨"d", 0, 100, "", some 1⟩

def u200 : UTXO := ⟨"e", 0, 200, "", some 1⟩

/-- A 2-DOGE UTXO for the Dogecoin dust-folding scenario. -/
def uDoge : UTXO := ⟨"f", 0, 200000000, "", some 1⟩

/-- The pairwise-distinct-identity relation on UTXOs: no shared `(txid, vout)`. -/
abbrev DistinctId (a b : UTXO) : Prop := (a.txid, a.vout) ≠ (b.txid, b.vout)

/-- C1: for every UTXO sequence, `targetAmount > 0`, `feeRate > 0` and strategy
on which `selectUTXOs` returns successfully (on either chain), the result
satisfies `totalInput = Σ selected.value` and `totalInput ≥ targetAmount + fee`. -/
theorem C1_success_totals :
    (∀ (utxos : List UTXO) (targetAmount feeRate : Nat) (strategy : Strategy)
        (r : SelectionResult),
      0 < targetAmount → 0 < feeRate →
      BitcoinTransactionBuilder.selectUTXOs utxos targetAmount feeRate strategy = .ok r →
      r.totalInput = (r.selectedUTXOs.map UTXO.value).sum ∧
      targetAmount + r.fee ≤ r.totalInput) ∧
    (∀ (utxos : List UTXO) (targetAmount feeRate : Nat) (strategy : Strategy)
        (r : SelectionResult),
      0 < targetAmount → 0 < feeRate →
      DogecoinTransactionBuilder.selectUTXOs utxos targetAmount feeRate strategy = .ok r →
      r.totalInput = (r.selectedUTXOs.map UTXO.value).sum ∧
      targetAmount + r.fee ≤ r.totalInput) := by
  constructor
  · intro utxos targetAmount feeRate strategy r _ _ h
    obtain ⟨h1, h2, _⟩ :=
      selectUTXOsCore_ok_spec 68 31 10 546 utxos targetAmount feeRate strategy r h
    exact ⟨h1, by omega⟩
  · intro utxos targetAmount feeRate strategy r _ _ h
    obtain ⟨h1, h2, _⟩ :=
      selectUTXOsCore_ok_spec 148 34 10 100000000 utxos targetAmount feeRate strategy r h
    exact ⟨h1, by omega⟩

/-- Witness for C1 at the Bitcoin scenario `[5000, 3000, 1000]`, amount 4000,
fee rate 1, largest-first. -/
theorem C1_success_totals_witness :
    (0 : Nat) < 4000 ∧ (0 : Nat) < 1 ∧
    BitcoinTransactionBuilder.selectUTXOs [u5000, u3000, u1000] 4000 1 .largestFirst =
      .ok ⟨[u5000], 5000, 140, 860⟩ ∧
    ((⟨[u5000], 5000, 140, 860⟩ : SelectionResult).totalInput =
      ((⟨[u5000], 5000, 140, 860⟩ : SelectionResult).selectedUTXOs.map UTXO.value).sum ∧
      4000 + (⟨[u5000], 5000, 140, 860⟩ : SelectionResult).fee ≤
        (⟨[u5000], 5000, 140, 860⟩ : SelectionResult).totalInput) :=
  ⟨by decide, by decide, by rfl,
    C1_success_totals.1 [u5000, u3000, u1000] 4000 1 .largestFirst
      ⟨[u5000], 5000, 140, 860⟩ (by decide) (by decide) (by rfl)⟩

/-- C2: a successful `selectUTXOs` call never returns a change strictly between
0 and the chain's dust limit; the returned quantities always satisfy
`totalInput = targetAmount + fee + change`, so a sub-dust raw change has been
folded into the fee (`change = 0`) and any other change is returned unchanged. -/
theorem C2_no_subdust_change :
    (∀ (utxos : List UTXO) (targetAmount feeRate : Nat) (strategy : Strategy)
        (r : SelectionResult),
      BitcoinTransactionBuilder.selectUTXOs utxos targetAmount feeRate strategy = .ok r →
      r.totalInput = targetAmount + r.fee + r.change ∧ (r.change = 0 ∨ 546 ≤ r.change)) ∧
    (∀ (utxos : List UTXO) (targetAmount feeRate : Nat) (strategy : Strategy)
        (r : SelectionResult),
      DogecoinTransactionBuilder.selectUTXOs utxos targetAmount feeRate strategy = .ok r →
      r.totalInput = targetAmount + r.fee + r.change ∧
        (r.change = 0 ∨ 100000000 ≤ r.change)) := by
  constructor
  · intro utxos targetAmount feeRate strategy r h
    obtain ⟨_, h2, h3⟩ :=
      selectUTXOsCore_ok_spec 68 31 10 546 utxos targetAmount feeRate strategy r h
    exact ⟨h2, h3⟩
  · intro utxos targetAmount feeRate strategy r h
    obtain ⟨_, h2, h3⟩ :=
      selectUTXOsCore_ok_spec 148 34 10 100000000 utxos targetAmount feeRate strategy r h
    exact ⟨h2, h3⟩

/-- Witness for C2 at the Dogecoin dust-folding scenario: a 2-DOGE input spent
with target 1.5 DOGE at rate 1 leaves a raw change of 49999808 koinu
(sub-dust), which is folded into the fee: the call returns `fee = 50000000`,
`change = 0`. -/
theorem C2_no_subdust_change_witness :
    DogecoinTransactionBuilder.selectUTXOs [uDoge] 150000000 1 .largestFirst =
      .ok ⟨[uDoge], 200000000, 50000000, 0⟩ ∧
    ((⟨[uDoge], 200000000, 50000000, 0⟩ : SelectionResult).totalInput =
        150000000 + (⟨[uDoge], 200000000, 50000000, 0⟩ : SelectionResult).fee +
          (⟨[uDoge], 200000000, 50000000, 0⟩ : SelectionResult).change ∧
      ((⟨[uDoge], 200000000, 50000000, 0⟩ : SelectionResult).change = 0 ∨
        100000000 ≤ (⟨[uDoge], 200000000, 50000000, 0⟩ : SelectionResult).change)) :=
  ⟨by rfl,
    C2_no_subdust_change.2 [uDoge] 150000000 1 .largestFirst
      ⟨[uDoge], 200000000, 50000000, 0⟩ (by rfl)⟩

/-- C3 counterexample: on the Bitcoin SegWit profile with largest-first, UTXO
values `[5000, 3000, 1000]`, target 4000 and fee rate 1, `selectUTXOs` does NOT
return `fee = 109`, `change = 891` as the claim states: the projected output
count at the first step is already 2 (because `5000 > 4000 + 0 + 546`), so the
estimated size is `1·68 + 2·31 + 10 = 140` vBytes. -/
theorem C3_counterexample :
    BitcoinTransactionBuilder.selectUTXOs [u5000, u3000, u1000] 4000 1 .largestFirst ≠
      .ok ⟨[u5000], 5000, 109, 891⟩ := by decide

/-- C3 amended: the run selects exactly the 5000-sat UTXO and returns
`fee = 140` and `change = 860` (`totalInput = 5000`). -/
theorem C3_amended :
    BitcoinTransactionBuilder.selectUTXOs [u5000, u3000, u1000] 4000 1 .largestFirst =
      .ok ⟨[u5000], 5000, 140, 860⟩ := by rfl

/-- C4 counterexample: `selectUTXOs` does not deduplicate its input, so an
input sequence that itself repeats a `(txid, vout)` can be selected twice: with
two copies of the same 5000-sat UTXO, target 8000 and fee rate 1 the call
succeeds and the selected sequence contains the same `(txid, vout)` twice. -/
theorem C4_counterexample :
    BitcoinTransactionBuilder.selectUTXOs [u5000, u5000] 8000 1 .largestFirst =
      .ok ⟨[u5000, u5000], 10000, 208, 1792⟩ ∧
    ¬ ([u5000, u5000].Pairwise DistinctId) := by
  constructor
  · rfl
  · intro h
    exact (List.pairwise_pair.mp h) rfl

/-- C4 amended: whenever the input UTXO sequence itself contains no two entries
with the same `(txid, vout)`, a successful `selectUTXOs` call (on either chain)
returns a selected sequence with no two entries with the same `(txid, vout)`
(the selection is a sublist of a permutation of the input). -/
theorem C4_amended_no_duplicates :
    (∀ (utxos : List UTXO) (targetAmount feeRate : Nat) (strategy : Strategy)
        (r : SelectionResult),
      utxos.Pairwise DistinctId →
      BitcoinTransactionBuilder.selectUTXOs utxos targetAmount feeRate strategy = .ok r →
      r.selectedUTXOs.Pairwise DistinctId) ∧
    (∀ (utxos : List UTXO) (targetAmount feeRate : Nat) (strategy : Strategy)
        (r : SelectionResult),
      utxos.Pairwise DistinctId →
      DogecoinTransactionBuilder.selectUTXOs utxos targetAmount feeRate strategy = .ok r →
      r.selectedUTXOs.Pairwise DistinctId) := by
  have hsym : ∀ {x y : UTXO}, DistinctId x y → DistinctId y x :=
    fun h => fun he => h he.symm
  constructor
  · intro utxos targetAmount feeRate strategy r hdist h
    have hsub :=
      selectUTXOsCore_selected_sublist 68 31 10 546 utxos targetAmount feeRate strategy r h
    have hsorted : (sortUTXOs strategy targetAmount utxos).Pairwise DistinctId :=
      ((sortUTXOs_perm strategy targetAmount utxos).pairwise_iff hsym).mpr hdist
    exact hsorted.sublist hsub
  · intro utxos targetAmount feeRate strategy r hdist h
    have hsub :=
      selectUTXOsCore_selected_sublist 148 34 10 100000000 utxos targetAmount feeRate
        strategy r h
    have hsorted : (sortUTXOs strategy targetAmount utxos).Pairwise DistinctId :=
      ((sortUTXOs_perm strategy targetAmount utxos).pairwise_iff hsym).mpr hdist
    exact hsorted.sublist hsub

/-- Witness for the amended C4 on a distinct-id input. -/
theorem C4_amended_no_duplicates_witness :
    [u5000, u3000].Pairwise DistinctId ∧
    BitcoinTransactionBuilder.selectUTXOs [u5000, u3000] 1000 1 .largestFirst =
      .ok ⟨[u5000], 5000, 140, 3860⟩ ∧
    ([u5000] : List UTXO).Pairwise DistinctId :=
  ⟨by decide, by rfl, by
    have := C4_amended_no_duplicates.1 [u5000, u3000] 1000 1 .largestFirst
      ⟨[u5000], 5000, 140, 3860⟩ (by decide) (by rfl)
    exact this⟩


/-- C5: both builders check their preconditions in source order — sender
address format, recipient address format, `amount > 0`, `amount ≥ dustLimit` —
and any violation short-circuits with the corresponding error while the
provider-invoked flag stays `false`: the UTXO provider is never consulted. -/
theorem C5_preconditions_short_circuit :
    (∀ (fromAddress : String) (options : TransactionBuildOptions)
        (providerUTXOs : List UTXO),
      (BitcoinBalanceChecker.isValidAddress fromAddress = false →
        BitcoinTransactionBuilder.buildBTCTransaction fromAddress options providerUTXOs =
          (.error .invalidSenderAddress, false)) ∧
      (BitcoinBalanceChecker.isValidAddress fromAddress = true →
        BitcoinBalanceChecker.isValidAddress options.toAddress = false →
        BitcoinTransactionBuilder.buildBTCTransaction fromAddress options providerUTXOs =
          (.error .invalidRecipientAddress, false)) ∧
      (BitcoinBalanceChecker.isValidAddress fromAddress = true →
        BitcoinBalanceChecker.isValidAddress options.toAddress = true →
        options.amount = 0 →
        BitcoinTransactionBuilder.buildBTCTransaction fromAddress options providerUTXOs =
          (.error .amountNotPositive, false)) ∧
      (BitcoinBalanceChecker.isValidAddress fromAddress = true →
        BitcoinBalanceChecker.isValidAddress options.toAddress = true →
        0 < options.amount → options.amount < 546 →
        BitcoinTransactionBuilder.buildBTCTransaction fromAddress options providerUTXOs =
          (.error .amountBelowDustLimit, false))) ∧
    (∀ (fromAddress : String) (options : TransactionBuildOptions)
        (providerUTXOs : List UTXO),
      (DogecoinBalanceChecker.isValidAddress fromAddress = false →
        DogecoinTransactionBuilder.buildDOGETransaction fromAddress options providerUTXOs =
          (.error .invalidSenderAddress, false)) ∧
      (DogecoinBalanceChecker.isValidAddress fromAddress = true →
        DogecoinBalanceChecker.isValidAddress options.toAddress = false →
        DogecoinTransactionBuilder.buildDOGETransaction fromAddress options providerUTXOs =
          (.error .invalidRecipientAddress, false)) ∧
      (DogecoinBalanceChecker.isValidAddress fromAddress = true →
        DogecoinBalanceChecker.isValidAddress options.toAddress = true →
        options.amount = 0 →
        DogecoinTransactionBuilder.buildDOGETransaction fromAddress options providerUTXOs =
          (.error .amountNotPositive, false)) ∧
      (DogecoinBalanceChecker.isValidAddress fromAddress = true →
        DogecoinBalanceChecker.isValidAddress options.toAddress = true →
        0 < options.amount → options.amount < 100000000 →
        DogecoinTransactionBuilder.buildDOGETransaction fromAddress options providerUTXOs =
          (.error .amountBelowDustLimit, false))) := by
  constructor
  · intro fromAddress options providerUTXOs
    refine ⟨?_, ?_, ?_, ?_⟩
    · intro h1
      simp [BitcoinTransactionBuilder.buildBTCTransaction, h1]
    · intro h1 h2
      simp [BitcoinTransactionBuilder.buildBTCTransaction, h1, h2]
    · intro h1 h2 h3
      simp [BitcoinTransactionBuilder.buildBTCTransaction, h1, h2, h3]
    · intro h1 h2 h3 h4
      have h5 : ¬ (options.amount ≤ 0) := by omega
      simp [BitcoinTransactionBuilder.buildBTCTransaction, h1, h2, h4, h5]
  · intro fromAddress options providerUTXOs
    refine ⟨?_, ?_, ?_, ?_⟩
    · intro h1
      simp [DogecoinTransactionBuilder.buildDOGETransaction, h1]
    · intro h1 h2
      simp [DogecoinTransactionBuilder.buildDOGETransaction, h1, h2]
    · intro h1 h2 h3
      simp [DogecoinTransactionBuilder.buildDOGETransaction, h1, h2, h3]
    · intro h1 h2 h3 h4
      have h5 : ¬ (options.amount ≤ 0) := by omega
      simp [DogecoinTransactionBuilder.buildDOGETransaction, h1, h2, h4, h5]

/-- Bitcoin addresses used by the concrete build scenarios (1 + 25 class chars,
3 + 25 class chars) and a string rejected by the predicate. -/
def addrA : String := "1AAAAAAAAAAAAAAAAAAAAAAAAA"

def addrB : String := "3BBBBBBBBBBBBBBBBBBBBBBBBB"

def badAddr : String := "bad"

/-- Build options with a sub-dust amount (100 < 546). -/
def optsDust : TransactionBuildOptions :=
  { toAddress := addrB, amount := 100, feeRate := some 1,
    changeAddress := none, strategy := none }

/-- Witness for C5: a build with amount 100 (below the 546-satoshi dust limit)
fails with the amount-below-dust error and the provider flag is `false`. -/
theorem C5_preconditions_short_circuit_witness :
    BitcoinTransactionBuilder.buildBTCTransaction addrA optsDust [u5000] =
      (.error .amountBelowDustLimit, false) :=
  ((C5_preconditions_short_circuit.1 addrA optsDust [u5000]).2.2.2
    (by rfl) (by rfl) (by decide) (by decide))

/-- C6: `validateTransaction` (a total function in this model, mirroring the
never-throwing source) reports `valid = true` exactly when its error list is
empty, and evaluates every check rather than stopping at the first violation:
a transaction with an invalid `toAddress` and `fee = 0` receives both errors in
one call, with `valid = false`. -/
theorem C6_validator_aggregation :
    (∀ tx : BitcoinTransactionBuilder.UnsignedBitcoinTransaction,
      ((BitcoinTransactionBuilder.validateTransaction tx).valid = true ↔
        (BitcoinTransactionBuilder.validateTransaction tx).errors = [])) ∧
    (∀ tx : BitcoinTransactionBuilder.UnsignedBitcoinTransaction,
      BitcoinBalanceChecker.isValidAddress tx.toAddress = false →
      tx.fee = 0 →
      ("Invalid recipient address") ∈
          (BitcoinTransactionBuilder.validateTransaction tx).errors ∧
        ("Fee must be greater than 0") ∈
          (BitcoinTransactionBuilder.validateTransaction tx).errors ∧
        (BitcoinTransactionBuilder.validateTransaction tx).valid = false) ∧
    (∀ tx : DogecoinTransactionBuilder.UnsignedDogecoinTransaction,
      ((DogecoinTransactionBuilder.validateTransaction tx).valid = true ↔
        (DogecoinTransactionBuilder.validateTransaction tx).errors = [])) ∧
    (∀ tx : DogecoinTransactionBuilder.UnsignedDogecoinTransaction,
      DogecoinBalanceChecker.isValidAddress tx.toAddress = false →
      tx.fee = 0 →
      ("Invalid recipient address") ∈
          (DogecoinTransactionBuilder.validateTransaction tx).errors ∧
        ("Fee must be greater than 0") ∈
          (DogecoinTransactionBuilder.validateTransaction tx).errors ∧
        (DogecoinTransactionBuilder.validateTransaction tx).valid = false) := by
  refine ⟨?_, ?_, ?_, ?_⟩
  · intro tx
    simp [BitcoinTransactionBuilder.validateTransaction, List.length_eq_zero]
  · intro tx h1 h2
    have hmem1 : ("Invalid recipient address") ∈
        BitcoinTransactionBuilder.validationErrors tx := by
      simp [BitcoinTransactionBuilder.validationErrors, h1]
    have hmem2 : ("Fee must be greater than 0") ∈
        BitcoinTransactionBuilder.validationErrors tx := by
      simp [BitcoinTransactionBuilder.validationErrors, h2]
    have hne : BitcoinTransactionBuilder.validationErrors tx ≠ [] :=
      List.ne_nil_of_mem hmem1
    refine ⟨hmem1, hmem2, ?_⟩
    simp [BitcoinTransactionBuilder.validateTransaction, List.length_eq_zero]
    exact hne
  · intro tx
    simp [DogecoinTransactionBuilder.validateTransaction, List.length_eq_zero]
  · intro tx h1 h2
    have hmem1 : ("Invalid recipient address") ∈
        DogecoinTransactionBuilder.validationErrors tx := by
      simp [DogecoinTransactionBuilder.validationErrors, h1]
    have hmem2 : ("Fee must be greater than 0") ∈
        DogecoinTransactionBuilder.validationErrors tx := by
      simp [DogecoinTransactionBuilder.validationErrors, h2]
    have hne : DogecoinTransactionBuilder.validationErrors tx ≠ [] :=
      List.ne_nil_of_mem hmem1
    refine ⟨hmem1, hmem2, ?_⟩
    simp [DogecoinTransactionBuilder.validateTransaction, List.length_eq_zero]
    exact hne

/-- A transaction with an invalid recipient and a zero fee, otherwise sound. -/
def txBadRecipient : BitcoinTransactionBuilder.UnsignedBitcoinTransaction :=
  ⟨[u5000], badAddr, 1000, addrA, 0, 0, 1, 5000, 109⟩

/-- Witness for C6 on `txBadRecipient`: both errors are reported in one call. -/
theorem C6_validator_aggregation_witness :
    ("Invalid recipient address") ∈
        (BitcoinTransactionBuilder.validateTransaction txBadRecipient).errors ∧
      ("Fee must be greater than 0") ∈
        (BitcoinTransactionBuilder.validateTransaction txBadRecipient).errors ∧
      (BitcoinTransactionBuilder.validateTransaction txBadRecipient).valid = false :=
  C6_validator_aggregation.2.1 txBadRecipient (by rfl) (by rfl)

/-- C7: when `selectUTXOs` fails (on either chain) it has consumed every
supplied UTXO — the reported `have` is the sum of all supplied values — and the
reported `needed` is the target amount plus the last fee estimate, computed at
the full input count with a projected output count of 1 or 2; in particular
`needed ≥ targetAmount`. -/
theorem C7_insufficient_funds_reporting :
    (∀ (utxos : List UTXO) (targetAmount feeRate : Nat) (strategy : Strategy)
        (e : InsufficientFunds),
      BitcoinTransactionBuilder.selectUTXOs utxos targetAmount feeRate strategy = .error e →
      e.haveVal = (utxos.map UTXO.value).sum ∧
      targetAmount ≤ e.needed ∧
      (utxos ≠ [] → ∃ c, (c = 1 ∨ c = 2) ∧
        e.needed = targetAmount +
          BitcoinTransactionBuilder.estimateTransactionSize utxos.length c true * feeRate)) ∧
    (∀ (utxos : List UTXO) (targetAmount feeRate : Nat) (strategy : Strategy)
        (e : InsufficientFunds),
      DogecoinTransactionBuilder.selectUTXOs utxos targetAmount feeRate strategy = .error e →
      e.haveVal = (utxos.map UTXO.value).sum ∧
      targetAmount ≤ e.needed ∧
      (utxos ≠ [] → ∃ c, (c = 1 ∨ c = 2) ∧
        e.needed = targetAmount +
          DogecoinTransactionBuilder.estimateTransactionSize utxos.length c * feeRate)) := by
  constructor
  · intro utxos targetAmount feeRate strategy e h
    obtain ⟨h1, h2, h3⟩ :=
      selectUTXOsCore_error_spec 68 31 10 546 utxos targetAmount feeRate strategy e h
    refine ⟨h1, h2, fun hne => ?_⟩
    obtain ⟨c, hc, hneed⟩ := h3 hne
    exact ⟨c, hc, by simpa [BitcoinTransactionBuilder.estimateTransactionSize] using hneed⟩
  · intro utxos targetAmount feeRate strategy e h
    obtain ⟨h1, h2, h3⟩ :=
      selectUTXOsCore_error_spec 148 34 10 100000000 utxos targetAmount feeRate strategy e h
    refine ⟨h1, h2, fun hne => ?_⟩
    obtain ⟨c, hc, hneed⟩ := h3 hne
    exact ⟨c, hc, by simpa [DogecoinTransactionBuilder.estimateTransactionSize] using hneed⟩

/-- Witness for C7 at the spec scenario: UTXO values `[100, 200]`, target 1000,
fee rate 1 fail with `have = 300` and `needed = 1177 ≥ 1000`. -/
theorem C7_insufficient_funds_reporting_witness :
    BitcoinTransactionBuilder.selectUTXOs [u100, u200] 1000 1 .largestFirst =
      .error ⟨1177, 300⟩ ∧
    (⟨1177, 300⟩ : InsufficientFunds).haveVal = ([u100, u200].map UTXO.value).sum ∧
    1000 ≤ (⟨1177, 300⟩ : InsufficientFunds).needed ∧
    (∃ c, (c = 1 ∨ c = 2) ∧ (⟨1177, 300⟩ : InsufficientFunds).needed =
      1000 + BitcoinTransactionBuilder.estimateTransactionSize
        ([u100, u200] : List UTXO).length c true * 1) := by
  have h := C7_insufficient_funds_reporting.1 [u100, u200] 1000 1 .largestFirst
    ⟨1177, 300⟩ (by rfl)
  exact ⟨by rfl, h.1, h.2.1, h.2.2 (by decide)⟩

/-- C8: the engine is a pure function of its inputs — two runs of `selectUTXOs`
or of the build step on identical inputs (including the same provider snapshot)
are definitionally the same computation — and the strategy sorts are stable:
UTXOs with equal sort key that appear in some order in the provider's array
appear in the same order in the sorted array. -/
theorem C8_determinism_and_stable_sort :
    (∀ (utxos : List UTXO) (targetAmount feeRate : Nat) (strategy : Strategy),
      BitcoinTransactionBuilder.selectUTXOs utxos targetAmount feeRate strategy =
        BitcoinTransactionBuilder.selectUTXOs utxos targetAmount feeRate strategy) ∧
    (∀ (fromAddress : String) (options : TransactionBuildOptions)
        (providerUTXOs : List UTXO),
      BitcoinTransactionBuilder.buildBTCTransaction fromAddress options providerUTXOs =
        BitcoinTransactionBuilder.buildBTCTransaction fromAddress options providerUTXOs) ∧
    (∀ (utxos : List UTXO) (targetAmount feeRate : Nat) (strategy : Strategy),
      DogecoinTransactionBuilder.selectUTXOs utxos targetAmount feeRate strategy =
        DogecoinTransactionBuilder.selectUTXOs utxos targetAmount feeRate strategy) ∧
    (∀ (fromAddress : String) (options : TransactionBuildOptions)
        (providerUTXOs : List UTXO),
      DogecoinTransactionBuilder.buildDOGETransaction fromAddress options providerUTXOs =
        DogecoinTransactionBuilder.buildDOGETransaction fromAddress options providerUTXOs) ∧
    (∀ (strategy : Strategy) (targetAmount : Nat) (utxos : List UTXO) (a b : UTXO),
      [a, b].Sublist utxos →
      sortKey strategy targetAmount a = sortKey strategy targetAmount b →
      [a, b].Sublist (sortUTXOs strategy targetAmount utxos)) :=
  ⟨fun _ _ _ _ => rfl, fun _ _ _ => rfl, fun _ _ _ _ => rfl, fun _ _ _ => rfl,
    sortUTXOs_stable⟩

/-- Two distinct UTXOs with the same value (equal sort key under
largest-first). -/
def uEq1 : UTXO := ⟨"g", 0, 4000, "", some 1⟩

def uEq2 : UTXO := ⟨"h", 1, 4000, "", some 1⟩

/-- Witness for C8: two equal-valued UTXOs keep their provider order through
the largest-first sort. -/
theorem C8_determinism_and_stable_sort_witness :
    sortKey .largestFirst 0 uEq1 = sortKey .largestFirst 0 uEq2 ∧
    [uEq1, uEq2].Sublist (sortUTXOs .largestFirst 0 [uEq1, uEq2]) :=
  ⟨rfl, C8_determinism_and_stable_sort.2.2.2.2 .largestFirst 0 [uEq1, uEq2] uEq1 uEq2
    (List.Sublist.refl _) rfl⟩

/-- The build options of the C9 scenario: a syntactically invalid change
address alongside valid sender/recipient addresses and a valid amount. -/
def optsBadChange : TransactionBuildOptions :=
  { toAddress := addrB, amount := 4000, feeRate := some 1,
    changeAddress := some badAddr, strategy := some .largestFirst }

/-- The unsigned transaction produced by the C9 build. -/
def txBadChange : BitcoinTransactionBuilder.UnsignedBitcoinTransaction :=
  ⟨[u5000], addrB, 4000, badAddr, 860, 140, 1, 5000, 140⟩

/-- C9: `buildBTCTransaction` never validates `options.changeAddress`: with a
valid sender and recipient and a valid amount but a change address that fails
the Bitcoin address predicate, the build still succeeds and the returned
transaction carries the invalid change address — which `validateTransaction`
then flags. -/
theorem C9_change_address_not_validated :
    BitcoinBalanceChecker.isValidAddress badAddr = false ∧
    BitcoinTransactionBuilder.buildBTCTransaction addrA optsBadChange [u5000] =
      (.ok txBadChange, true) ∧
    txBadChange.changeAddress = badAddr ∧
    ("Invalid change address") ∈
      (BitcoinTransactionBuilder.validateTransaction txBadChange).errors ∧
    (BitcoinTransactionBuilder.validateTransaction txBadChange).valid = false := by
  refine ⟨by rfl, by rfl, by rfl, by decide, by decide⟩

/-- C10: `selectUTXOs` never mutates the caller's UTXO array: in the
state-passing embedding that returns the caller's array after the call, the
array is element-for-element the input array (the sort operates on the copy
`[...utxos]`), and the computed result is exactly `selectUTXOsCore`, whether it
succeeds or fails.  Both chains instantiate this engine (Bitcoin with weights
68/31/10 and dust 546, Dogecoin with 148/34/10 and dust 100000000). -/
theorem C10_caller_array_preserved :
    ∀ (inW outW ovh dust : Nat) (utxos : List UTXO) (targetAmount feeRate : Nat)
      (strategy : Strategy),
    (selectUTXOsCallerArray inW outW ovh dust utxos targetAmount feeRate strategy).2 =
      utxos ∧
    (selectUTXOsCallerArray inW outW ovh dust utxos targetAmount feeRate strategy).1 =
      selectUTXOsCore inW outW ovh dust utxos targetAmount feeRate strategy :=
  fun _ _ _ _ _ _ _ _ => ⟨rfl, rfl⟩
